import Mathlib

/-
Verification of the FarePlay discovery service core (registration, heartbeat,
update, discovery query and inactivity sweep of casino participants).

Shallow embedding notes:
  - timestamps are modelled as Int (milliseconds since the epoch, as returned
    by Date.now in the source);
  - JS numbers appearing in payloads are modelled as integers (Json.num : Int);
    floating point formatting is outside the scope of the embedding;
  - the Ed25519 core of tweetnacl is modelled as an abstract boolean function
    (EdVerify) that every statement quantifies over; the decoding, length
    checks and the try/catch wrapper around it are translated from the source;
  - the Prisma store operations (findUnique, create, update, updateMany,
    findMany, count) are modelled as pure functions over an explicit Store
    value, with PostgreSQL semantics for NULL in comparisons and in ORDER BY.
-/

namespace FareplayDiscovery

/- ## Lexicographic string order

JavaScript Array.prototype.sort with no comparator compares strings by code
units; for the ASCII keys appearing in payloads this agrees with comparison
by code point, which is what charsLe implements. -/

/-- Lexicographic comparison of char lists by code point. -/
def charsLe : List Char → List Char → Bool
  | [], _ => true
  | _ :: _, [] => false
  | a :: as, b :: bs =>
    if a.toNat < b.toNat then true
    else if b.toNat < a.toNat then false
    else charsLe as bs

/-- Lexicographic order on strings, as used by Object.keys(x).sort(). -/
def strLe (a b : String) : Bool := charsLe a.toList b.toList

/-- Propositional form of strLe, for use with List.insertionSort. -/
def strLeRel (a b : String) : Prop := strLe a b = true

instance : DecidableRel strLeRel := fun a b => inferInstanceAs (Decidable (_ = true))

/- ## JSON values and JSON.stringify

The write routes build the signed message with
  JSON.stringify(dataToSign, Object.keys(dataToSign).sort())
(src/middleware/validation.ts and src/routes/casinos.ts). The second
argument is an array replacer: per the ECMAScript SerializeJSONObject
algorithm the property list is used, at every nesting level, both as the
set of properties that are serialized and as their output order. -/

/-- JSON values. Json.num models integer-valued JS numbers. -/
inductive Json where
  | null
  | bool (b : Bool)
  | num (n : Int)
  | str (s : String)
  | arr (elems : List Json)
  | obj (fields : List (String × Json))

/-- Hex digit char (lowercase), as produced by QuoteJSONString. -/
def hexDigitChar (n : Nat) : Char :=
  if n < 10 then Char.ofNat (48 + n) else Char.ofNat (87 + n)

/-- Escape of a control character as a \u00xx sequence. -/
def escapeControl (n : Nat) : String :=
  "\\u" ++ String.mk [hexDigitChar (n / 4096 % 16), hexDigitChar (n / 256 % 16),
    hexDigitChar (n / 16 % 16), hexDigitChar (n % 16)]

/-- Escaping of one character per the ECMAScript QuoteJSONString algorithm. -/
def quoteJsonChar (c : Char) : String :=
  if c = '"' then "\\\""
  else if c = '\\' then "\\\\"
  else if c.toNat = 8 then "\\b"
  else if c.toNat = 9 then "\\t"
  else if c.toNat = 10 then "\\n"
  else if c.toNat = 12 then "\\f"
  else if c.toNat = 13 then "\\r"
  else if c.toNat < 32 then escapeControl c.toNat
  else String.singleton c

/-- Quoted JSON string literal per QuoteJSONString. -/
def quoteJson (s : String) : String :=
  "\"" ++ String.join (s.toList.map quoteJsonChar) ++ "\""

mutual
/-- Serialization of a Json tree, fields in list order (the reordering and
filtering done by an array replacer is applied beforehand by jsonReplace). -/
def serializeJson : Json → String
  | .null => "null"
  | .bool b => if b then "true" else "false"
  | .num n => toString n
  | .str s => quoteJson s
  | .arr xs => "[" ++ String.intercalate "," (serializeElems xs) ++ "]"
  | .obj fs => "\x7b" ++ String.intercalate "," (serializeProps fs) ++ "\x7d"

/-- Serialized pieces for the elements of a JSON array. -/
def serializeElems : List Json → List String
  | [] => []
  | x :: xs => serializeJson x :: serializeElems xs

/-- Serialized pieces for the members of a JSON object. -/
def serializeProps : List (String × Json) → List String
  | [] => []
  | (k, v) :: fs => (quoteJson k ++ ":" ++ serializeJson v) :: serializeProps fs
end

/-- Selection and ordering of object members by the replacer property list:
for each name in K, in order, the member with that name if present. -/
def selectByKeys (K : List String) (fs : List (String × Json)) : List (String × Json) :=
  K.filterMap (fun k => (List.lookup k fs).map (fun v => (k, v)))

mutual
/-- Effect of the array replacer K on a Json tree: at every object, members
are filtered to the names in K and emitted in the order of K; arrays are
traversed elementwise. This is the PropertyList treatment of the ECMAScript
SerializeJSONObject algorithm. -/
def jsonReplace (K : List String) : Json → Json
  | .null => .null
  | .bool b => .bool b
  | .num n => .num n
  | .str s => .str s
  | .arr xs => .arr (jsonReplaceElems K xs)
  | .obj fs => .obj (selectByKeys K (jsonReplaceProps K fs))

/-- Replacer applied to the elements of an array. -/
def jsonReplaceElems (K : List String) : List Json → List Json
  | [] => []
  | x :: xs => jsonReplace K x :: jsonReplaceElems K xs

/-- Replacer applied to the values of object members (before selection). -/
def jsonReplaceProps (K : List String) : List (String × Json) → List (String × Json)
  | [] => []
  | (k, v) :: fs => (k, jsonReplace K v) :: jsonReplaceProps K fs
end

/-- Top-level member names of a JSON value: Object.keys(dataToSign). -/
def topLevelKeys : Json → List String
  | .obj fs => fs.map Prod.fst
  | _ => []

/-- Object.keys(dataToSign).sort(). -/
def sortedKeys (j : Json) : List String := List.insertionSort strLeRel (topLevelKeys j)

/-- Removal of the signature member: const ( signature, ...dataToSign ) = body.
Rest destructuring keeps the remaining members in their insertion order. -/
def removeSignatureField : Json → Json
  | .obj fs => .obj (fs.filter (fun p => !(p.1 == "signature")))
  | j => j

/-- Message construction of the write routes:
JSON.stringify(dataToSign, Object.keys(dataToSign).sort()) where dataToSign
is the request body without its signature member. -/
def canonicalizeBody (body : Json) : String :=
  let dataToSign := removeSignatureField body
  serializeJson (jsonReplace (sortedKeys dataToSign) dataToSign)

/-- Propositional key order for sorting object members by name. -/
def fieldLeRel (p q : String × Json) : Prop := strLeRel p.1 q.1

instance : DecidableRel fieldLeRel := fun p q => inferInstanceAs (Decidable (strLeRel _ _))

mutual
/-- Modelled from the spec: serialization with every member name sorted
lexicographically at every nesting level, recursively, and no member
dropped. This is the canonicalization the specification describes; it is
defined only to be compared against canonicalizeBody, which is translated
from the source. -/
def sortKeysDeep : Json → Json
  | .null => .null
  | .bool b => .bool b
  | .num n => .num n
  | .str s => .str s
  | .arr xs => .arr (sortKeysDeepElems xs)
  | .obj fs => .obj (List.insertionSort fieldLeRel (sortKeysDeepProps fs))

/-- Recursive key sorting on array elements. -/
def sortKeysDeepElems : List Json → List Json
  | [] => []
  | x :: xs => sortKeysDeep x :: sortKeysDeepElems xs

/-- Recursive key sorting on member values. -/
def sortKeysDeepProps : List (String × Json) → List (String × Json)
  | [] => []
  | (k, v) :: fs => (k, sortKeysDeep v) :: sortKeysDeepProps fs
end

/-- Modelled from the spec: the canonicalization described by the
specification, with keys sorted recursively at every nesting level. -/
def canonicalizeSpecSorted (body : Json) : String :=
  serializeJson (sortKeysDeep (removeSignatureField body))

/- ## Structural equality of payloads

Two payloads are structurally equal when they carry the same members with
the same values at every level, regardless of the member insertion order
used by the caller. -/

mutual
/-- Structural equality of JSON values up to member order at every level:
b carries the same members as a with structurally equal values, possibly
inserted in a different order at every object. -/
inductive StructEq : Json → Json → Prop where
  | null : StructEq .null .null
  | bool (b : Bool) : StructEq (.bool b) (.bool b)
  | num (n : Int) : StructEq (.num n) (.num n)
  | str (s : String) : StructEq (.str s) (.str s)
  | arr {xs ys : List Json} : StructEqList xs ys → StructEq (.arr xs) (.arr ys)
  | obj {fs gs gs' : List (String × Json)} :
      gs.Perm gs' → StructEqFields fs gs' → StructEq (.obj fs) (.obj gs)

/-- Elementwise structural equality of array elements. -/
inductive StructEqList : List Json → List Json → Prop where
  | nil : StructEqList [] []
  | cons {x y : Json} {xs ys : List Json} :
      StructEq x y → StructEqList xs ys → StructEqList (x :: xs) (y :: ys)

/-- Pointwise structural equality of member lists: same names in the same
positions, structurally equal values. -/
inductive StructEqFields : List (String × Json) → List (String × Json) → Prop where
  | nil : StructEqFields [] []
  | cons {k : String} {v w : Json} {fs gs : List (String × Json)} :
      StructEq v w → StructEqFields fs gs → StructEqFields ((k, v) :: fs) ((k, w) :: gs)
end

/-- Well-formed JSON: member names are pairwise distinct at every level,
as they are for any value produced by parsing a JSON document. -/
inductive WFJson : Json → Prop where
  | null : WFJson .null
  | bool (b : Bool) : WFJson (.bool b)
  | num (n : Int) : WFJson (.num n)
  | str (s : String) : WFJson (.str s)
  | arr {xs : List Json} : (∀ x ∈ xs, WFJson x) → WFJson (.arr xs)
  | obj {fs : List (String × Json)} :
      (fs.map Prod.fst).Nodup → (∀ p ∈ fs, WFJson p.2) → WFJson (.obj fs)

/- ## Signature codec (src/utils/crypto.ts) -/

/-- Abstract Ed25519 verification core (message bytes, signature bytes,
public key bytes). The statements below hold for every such function. -/
def EdVerify : Type := List Nat → List Nat → List Nat → Bool

/-- Base58 alphabet used by bs58. -/
def base58Alphabet : List Char :=
  "123456789ABCDEFGHJKLMNPQRSTUVWXYZabcdefghijkmnopqrstuvwxyz".toList

/-- Value of one base58 digit, none for a character outside the alphabet. -/
def base58CharValue (c : Char) : Option Nat := base58Alphabet.indexOf? c

/-- Accumulated value of a base58 digit string; none on any invalid char
(bs58.decode throws there). -/
def base58Nat : List Char → Nat → Option Nat
  | [], acc => some acc
  | c :: cs, acc =>
    match base58CharValue c with
    | none => none
    | some v => base58Nat cs (acc * 58 + v)

/-- Fuel-driven big-endian byte expansion; the fuel only bounds the
recursion depth and any fuel at least the value itself is enough. -/
def natBytesAux : Nat → Nat → List Nat
  | 0, _ => []
  | _ + 1, 0 => []
  | fuel + 1, n + 1 => natBytesAux fuel ((n + 1) / 256) ++ [(n + 1) % 256]

/-- Big-endian bytes of a natural number, empty for zero. -/
def natBytes (n : Nat) : List Nat := natBytesAux n n

/-- bs58.decode: leading characters of value zero become leading zero bytes,
the remainder is decoded as a big-endian base58 number. -/
def base58Decode (s : String) : Option (List Nat) :=
  let cs := s.toList
  let zeros := cs.takeWhile (fun c => c == '1') |>.length
  match base58Nat cs 0 with
  | none => none
  | some n => some (List.replicate zeros 0 ++ natBytes n)

/-- Bytes of new PublicKey(s): base58 decode plus the exact 32-byte length
check of the @solana/web3.js PublicKey constructor; none when the
constructor would throw. -/
def solanaPublicKeyBytes (s : String) : Option (List Nat) :=
  match base58Decode s with
  | none => none
  | some bs => if bs.length = 32 then some bs else none

/-- isValidSolanaPublicKey from src/utils/crypto.ts: true iff new PublicKey
does not throw. -/
def isValidSolanaPublicKey (s : String) : Bool :=
  (solanaPublicKeyBytes s).isSome

/-- UTF-8 encoding of one character (TextEncoder.prototype.encode). -/
def utf8EncodeChar (c : Char) : List Nat :=
  let n := c.toNat
  if n < 128 then [n]
  else if n < 2048 then [192 + n / 64, 128 + n % 64]
  else if n < 65536 then [224 + n / 4096, 128 + n / 64 % 64, 128 + n % 64]
  else [240 + n / 262144, 128 + n / 4096 % 64, 128 + n / 64 % 64, 128 + n % 64]

/-- UTF-8 encoding of a string. -/
def utf8Encode (s : String) : List Nat := (s.toList.map utf8EncodeChar).flatten

/-- nacl.sign.detached.verify: tweetnacl throws on a signature that is not
64 bytes or a public key that is not 32 bytes; the caller catches the throw
and returns false, so both cases are false here. -/
def naclSignDetachedVerify (ed : EdVerify) (msg sig pk : List Nat) : Bool :=
  if sig.length ≠ 64 then false
  else if pk.length ≠ 32 then false
  else ed msg sig pk

/-- verifySolanaSignature from src/utils/crypto.ts: decode the signature and
public key from base58, encode the message as UTF-8 and check the detached
signature; every decode failure or thrown error is caught and becomes the
single observable outcome false. -/
def verifySolanaSignature (ed : EdVerify) (message signature publicKey : String) : Bool :=
  match base58Decode signature with
  | none => false
  | some sigBytes =>
    match solanaPublicKeyBytes publicKey with
    | none => false
    | some pkBytes => naclSignDetachedVerify ed (utf8Encode message) sigBytes pkBytes

/- ## Data model (prisma casino and heartbeat records, src/types/index.ts) -/

/-- Casino status enumeration. -/
inductive CasinoStatus where
  | online
  | offline
  | maintenance
  | suspended
deriving DecidableEq

/-- String form of a status, as it appears in a JSON payload. -/
def statusToString : CasinoStatus → String
  | .online => "online"
  | .offline => "offline"
  | .maintenance => "maintenance"
  | .suspended => "suspended"

/-- Stored casino record (prisma model Casino, flattened metadata columns as
in src/services/casinoService.ts). -/
structure Casino where
  id : String
  publicKey : String
  name : String
  url : String
  status : CasinoStatus
  description : Option String
  games : List String
  logo : Option String
  banner : Option String
  twitterUrl : Option String
  discordUrl : Option String
  telegramUrl : Option String
  websiteUrl : Option String
  maxBetAmount : Option Int
  minBetAmount : Option Int
  supportedTokens : List String
  createdAt : Int
  updatedAt : Int
  lastHeartbeat : Option Int
  version : String
deriving DecidableEq

/-- Stored heartbeat record (prisma model Heartbeat). -/
structure HeartbeatRecord where
  id : String
  casinoId : String
  status : CasinoStatus
  activePlayers : Option Int
  totalBets24h : Option Int
  uptime : Option Int
  responseTime : Option Int
  signature : String
  timestamp : Int
deriving DecidableEq

/-- The registry store: casino records plus the append-only heartbeat log. -/
structure Store where
  casinos : List Casino
  heartbeats : List HeartbeatRecord
deriving DecidableEq

/-- prisma.casino.findUnique on id. -/
def findUniqueById (s : Store) (id : String) : Option Casino :=
  s.casinos.find? (fun c => c.id == id)

/-- prisma.casino.findUnique on publicKey. -/
def findUniqueByPublicKey (s : Store) (pk : String) : Option Casino :=
  s.casinos.find? (fun c => c.publicKey == pk)

/- ## Request types (Zod schemas of src/types/index.ts, after parsing) -/

/-- Social links block of a request. -/
structure SocialLinksInput where
  twitter : Option String
  discord : Option String
  telegram : Option String
  website : Option String
deriving DecidableEq

/-- Registration metadata as submitted by the caller, before the Zod
defaults are applied: games and supportedTokens may be left unspecified. -/
structure RegistrationMetadataRaw where
  description : Option String
  games : Option (List String)
  logo : Option String
  banner : Option String
  socialLinks : Option SocialLinksInput
  maxBetAmount : Option Int
  minBetAmount : Option Int
  supportedTokens : Option (List String)
deriving DecidableEq

/-- Registration metadata after Zod parsing: games and supportedTokens are
always present. -/
structure RegistrationMetadata where
  description : Option String
  games : List String
  logo : Option String
  banner : Option String
  socialLinks : Option SocialLinksInput
  maxBetAmount : Option Int
  minBetAmount : Option Int
  supportedTokens : List String
deriving DecidableEq

/-- Default application of RegistrationRequestSchema: games defaults to []
and supportedTokens defaults to [SOL] when unspecified. -/
def parseRegistrationMetadata (m : RegistrationMetadataRaw) : RegistrationMetadata :=
  { description := m.description
    games := m.games.getD []
    logo := m.logo
    banner := m.banner
    socialLinks := m.socialLinks
    maxBetAmount := m.maxBetAmount
    minBetAmount := m.minBetAmount
    supportedTokens := m.supportedTokens.getD ["SOL"] }

/-- Parsed registration request. -/
structure RegistrationRequest where
  name : String
  url : String
  publicKey : String
  signature : String
  metadata : RegistrationMetadata
deriving DecidableEq

/-- Heartbeat metrics block. -/
structure HeartbeatMetrics where
  activePlayers : Option Int
  totalBets24h : Option Int
  uptime : Option Int
  responseTime : Option Int
deriving DecidableEq

/-- Parsed heartbeat payload. -/
structure HeartbeatPayload where
  casinoId : String
  status : CasinoStatus
  timestamp : Int
  metrics : Option HeartbeatMetrics
  signature : String
deriving DecidableEq

/-- Update metadata block: every member optional. -/
structure UpdateMetadata where
  description : Option String
  games : Option (List String)
  logo : Option String
  banner : Option String
  socialLinks : Option SocialLinksInput
  maxBetAmount : Option Int
  minBetAmount : Option Int
  supportedTokens : Option (List String)
deriving DecidableEq

/-- Parsed update request. -/
structure CasinoUpdateRequest where
  casinoId : String
  name : Option String
  url : Option String
  status : Option CasinoStatus
  metadata : Option UpdateMetadata
  signature : String
deriving DecidableEq

/-- Discovery query filters after Zod parsing (limit defaulted to 20 and
capped at 100, offset defaulted to 0). -/
structure CasinoFilters where
  status : Option CasinoStatus
  games : Option (List String)
  limit : Nat
  offset : Nat
deriving DecidableEq

/- ## JSON form of parsed request bodies

validateBody replaces request.body with schema.parse(request.body); Zod
rebuilds the object with the members in schema declaration order and omits
absent optional members, so the JSON value the routes canonicalize has the
member order fixed below. -/

/-- Optional member: present iff the value is present. -/
def optField (k : String) (v : Option Json) : List (String × Json) :=
  match v with
  | some j => [(k, j)]
  | none => []

/-- JSON form of a social links block (schema order). -/
def socialLinksJson (sl : SocialLinksInput) : Json :=
  .obj (optField "twitter" (sl.twitter.map .str) ++
    optField "discord" (sl.discord.map .str) ++
    optField "telegram" (sl.telegram.map .str) ++
    optField "website" (sl.website.map .str))

/-- JSON form of parsed registration metadata (schema order; games and
supportedTokens are always present after parsing). -/
def registrationMetadataJson (m : RegistrationMetadata) : Json :=
  .obj (optField "description" (m.description.map .str) ++
    [("games", .arr (m.games.map .str))] ++
    optField "logo" (m.logo.map .str) ++
    optField "banner" (m.banner.map .str) ++
    optField "socialLinks" (m.socialLinks.map socialLinksJson) ++
    optField "maxBetAmount" (m.maxBetAmount.map .num) ++
    optField "minBetAmount" (m.minBetAmount.map .num) ++
    [("supportedTokens", .arr (m.supportedTokens.map .str))])

/-- JSON form of a parsed registration request (schema order). -/
def registrationRequestJson (r : RegistrationRequest) : Json :=
  .obj [("name", .str r.name), ("url", .str r.url), ("publicKey", .str r.publicKey),
    ("signature", .str r.signature), ("metadata", registrationMetadataJson r.metadata)]

/-- JSON form of a heartbeat metrics block (schema order). -/
def heartbeatMetricsJson (m : HeartbeatMetrics) : Json :=
  .obj (optField "activePlayers" (m.activePlayers.map .num) ++
    optField "totalBets24h" (m.totalBets24h.map .num) ++
    optField "uptime" (m.uptime.map .num) ++
    optField "responseTime" (m.responseTime.map .num))

/-- JSON form of a parsed heartbeat payload (schema order). -/
def heartbeatPayloadJson (p : HeartbeatPayload) : Json :=
  .obj ([("casinoId", .str p.casinoId), ("status", .str (statusToString p.status)),
    ("timestamp", .num p.timestamp)] ++
    optField "metrics" (p.metrics.map heartbeatMetricsJson) ++
    [("signature", .str p.signature)])

/- ## Casino service (src/services/casinoService.ts) -/

/-- Service protocol version: the literal 1.0.0 stamped on created records,
also reported as protocolVersion by the root endpoint of the app. -/
def serviceProtocolVersion : String := "1.0.0"

/-- Named error conditions thrown by the service. -/
inductive ServiceError where
  | casinoNotFound
  | casinoAlreadyExists
deriving DecidableEq

/-- Acknowledgement returned by updateHeartbeat. -/
structure HeartbeatAck where
  success : Bool
  timestamp : Int
  nextHeartbeatIn : Int
deriving DecidableEq

/-- registerCasino: duplicate lookup by publicKey, then prisma.casino.create.
now is the server clock at creation and freshId the store-assigned id.
The source guards games and supportedTokens with a JS or-fallback, which is
inert after the Zod defaults because arrays are truthy, so the parsed values
are stored as they are. -/
def registerCasino (now : Int) (freshId : String) (input : RegistrationRequest)
    (s : Store) : Except ServiceError (Casino × Store) :=
  match findUniqueByPublicKey s input.publicKey with
  | some _ => .error .casinoAlreadyExists
  | none =>
    let casino : Casino :=
      { id := freshId
        publicKey := input.publicKey
        name := input.name
        url := input.url
        status := .online
        description := input.metadata.description
        games := input.metadata.games
        logo := input.metadata.logo
        banner := input.metadata.banner
        twitterUrl := input.metadata.socialLinks.bind (fun sl => sl.twitter)
        discordUrl := input.metadata.socialLinks.bind (fun sl => sl.discord)
        telegramUrl := input.metadata.socialLinks.bind (fun sl => sl.telegram)
        websiteUrl := input.metadata.socialLinks.bind (fun sl => sl.website)
        maxBetAmount := input.metadata.maxBetAmount
        minBetAmount := input.metadata.minBetAmount
        supportedTokens := input.metadata.supportedTokens
        createdAt := now
        updatedAt := now
        lastHeartbeat := none
        version := serviceProtocolVersion }
    .ok (casino, { s with casinos := s.casinos ++ [casino] })

/-- prisma.casino.update restricted to one id: the matching record is
replaced by f applied to it, other records are untouched. updatedAt is
refreshed by the store on every update (modelled from the spec: the prisma
schema is not part of src, the spec states updatedAt is refreshed on any
successful update or heartbeat-driven change). -/
def updateCasinoRecord (now : Int) (s : Store) (id : String) (f : Casino → Casino) : Store :=
  { s with casinos := s.casinos.map (fun c => if c.id == id then { f c with updatedAt := now } else c) }

/-- updateHeartbeat: look the casino up by id, append a heartbeat record,
then update status and lastHeartbeat. Both the stored record timestamp and
lastHeartbeat are new Date(input.timestamp), the client-claimed time; only
the returned acknowledgement carries Date.now(), the server clock now. -/
def updateHeartbeat (now : Int) (hbId : String) (input : HeartbeatPayload)
    (s : Store) : Except ServiceError (HeartbeatAck × Store) :=
  match findUniqueById s input.casinoId with
  | none => .error .casinoNotFound
  | some casino =>
    let record : HeartbeatRecord :=
      { id := hbId
        casinoId := casino.id
        status := input.status
        activePlayers := input.metrics.bind (fun m => m.activePlayers)
        totalBets24h := input.metrics.bind (fun m => m.totalBets24h)
        uptime := input.metrics.bind (fun m => m.uptime)
        responseTime := input.metrics.bind (fun m => m.responseTime)
        signature := input.signature
        timestamp := input.timestamp }
    let s1 : Store := { s with heartbeats := s.heartbeats ++ [record] }
    let s2 := updateCasinoRecord now s1 casino.id
      (fun c => { c with status := input.status, lastHeartbeat := some input.timestamp })
    .ok ({ success := true, timestamp := now, nextHeartbeatIn := 60 }, s2)

/-- Conditional column assignments of updateCasino for the socialLinks
block: each sub-field present in the input overwrites the corresponding
flattened column, each absent sub-field leaves it unchanged. Option.elim
renders one conditional assignment: absent keeps the record, present sets
the one column. -/
def applySocialLinksUpdate (sl : SocialLinksInput) (c : Casino) : Casino :=
  let d1 := sl.twitter.elim c (fun v => { c with twitterUrl := some v })
  let d2 := sl.discord.elim d1 (fun v => { d1 with discordUrl := some v })
  let d3 := sl.telegram.elim d2 (fun v => { d2 with telegramUrl := some v })
  sl.website.elim d3 (fun v => { d3 with websiteUrl := some v })

/-- Conditional column assignments of updateCasino for the metadata block,
one member at a time in source order. -/
def applyMetadataUpdate (md : UpdateMetadata) (c : Casino) : Casino :=
  let c1 := md.description.elim c (fun v => { c with description := some v })
  let c2 := md.games.elim c1 (fun v => { c1 with games := v })
  let c3 := md.logo.elim c2 (fun v => { c2 with logo := some v })
  let c4 := md.banner.elim c3 (fun v => { c3 with banner := some v })
  let c5 := md.socialLinks.elim c4 (fun sl => applySocialLinksUpdate sl c4)
  let c6 := md.maxBetAmount.elim c5 (fun v => { c5 with maxBetAmount := some v })
  let c7 := md.minBetAmount.elim c6 (fun v => { c6 with minBetAmount := some v })
  md.supportedTokens.elim c7 (fun v => { c7 with supportedTokens := v })

/-- Field-by-field merge of updateCasino: every member present in the input
overwrites the stored column, every absent member leaves it unchanged;
this is the net effect of the updateData object built by the source and
applied by prisma.casino.update. -/
def applyCasinoUpdate (input : CasinoUpdateRequest) (c0 : Casino) : Casino :=
  let c1 := input.name.elim c0 (fun v => { c0 with name := v })
  let c2 := input.url.elim c1 (fun v => { c1 with url := v })
  let c3 := input.status.elim c2 (fun v => { c2 with status := v })
  input.metadata.elim c3 (fun md => applyMetadataUpdate md c3)

/-- updateCasino: look the casino up by id, then apply the partial merge
through prisma.casino.update. -/
def updateCasino (now : Int) (input : CasinoUpdateRequest) (s : Store) :
    Except ServiceError (Casino × Store) :=
  match findUniqueById s input.casinoId with
  | none => .error .casinoNotFound
  | some casino =>
    let merged := { applyCasinoUpdate input casino with updatedAt := now }
    (.ok (merged, updateCasinoRecord now s casino.id (fun c => applyCasinoUpdate input c)))

/-- Where clause of getCasinos: optional status equality plus games hasSome
(non-empty intersection), the games condition only added for a non-empty
filter list. -/
def matchesFilters (f : CasinoFilters) (c : Casino) : Bool :=
  (match f.status with
   | some st => c.status == st
   | none => true) &&
  (match f.games with
   | some gs => if gs.isEmpty then true else gs.any (fun g => c.games.contains g)
   | none => true)

/-- Page order of getCasinos: ORDER BY lastHeartbeat DESC on PostgreSQL.
PostgreSQL sorts NULL as larger than every non-NULL value, so under DESC
the records without a heartbeat come first (NULLS FIRST is the PostgreSQL
default for descending order and prisma emits no NULLS modifier). -/
def lastHeartbeatDescBefore (a b : Option Int) : Bool :=
  match a, b with
  | none, _ => true
  | some _, none => false
  | some x, some y => y ≤ x

/-- Sort relation on casino records for the discovery page. -/
def hbDescRel (a b : Casino) : Prop :=
  lastHeartbeatDescBefore a.lastHeartbeat b.lastHeartbeat = true

instance : DecidableRel hbDescRel := fun a b => inferInstanceAs (Decidable (_ = true))

/-- Result of getCasinos. -/
structure GetCasinosResult where
  casinos : List Casino
  total : Nat
  limit : Nat
  offset : Nat
deriving DecidableEq

/-- getCasinos: findMany with the where clause, OFFSET skip, LIMIT take and
ORDER BY lastHeartbeat DESC, next to a count over the same where clause. -/
def getCasinos (filters : CasinoFilters) (s : Store) : GetCasinosResult :=
  let matching := s.casinos.filter (matchesFilters filters)
  let sorted := List.insertionSort hbDescRel matching
  { casinos := (sorted.drop filters.offset).take filters.limit
    total := matching.length
    limit := filters.limit
    offset := filters.offset }

/-- Row condition of the sweeper updateMany: lastHeartbeat < cutoff AND
status <> offline. In SQL a NULL lastHeartbeat satisfies no < comparison,
so rows without a heartbeat never match. -/
def sweepCondition (cutoff : Int) (c : Casino) : Bool :=
  (match c.lastHeartbeat with
   | some t => decide (t < cutoff)
   | none => false) &&
  !(c.status == .offline)

/-- markInactiveCasinos: one updateMany setting status offline on every
record whose lastHeartbeat is older than now minus the timeout and whose
status is not already offline; returns the number of rows updated. -/
def markInactiveCasinos (timeoutMinutes : Int) (now : Int) (s : Store) : Nat × Store :=
  let cutoff := now - timeoutMinutes * 60 * 1000
  let n := s.casinos.countP (sweepCondition cutoff)
  let swept := s.casinos.map
    (fun c => if sweepCondition cutoff c then { c with status := CasinoStatus.offline } else c)
  (n, { s with casinos := swept })

/- ## Write routes (src/routes/casinos.ts and src/middleware/validation.ts) -/

/-- Outcome of the registration route. -/
inductive RegisterRouteOutcome where
  | invalidRequest
  | invalidSignature
  | alreadyExists
  | created (casino : Casino)
deriving DecidableEq

/-- POST /api/casinos/register after body validation: the
verifyRegistrationSignature middleware checks that signature and publicKey
are non-empty (JS truthiness on strings), that the public key is well
formed, and verifies the signature over the canonicalized body against the
claimed key; only then does the handler call registerCasino. -/
def registerRoute (ed : EdVerify) (now : Int) (freshId : String)
    (body : RegistrationRequest) (s : Store) : RegisterRouteOutcome × Store :=
  if body.signature == "" then (.invalidRequest, s)
  else if body.publicKey == "" then (.invalidRequest, s)
  else if !(isValidSolanaPublicKey body.publicKey) then (.invalidRequest, s)
  else
    let message := canonicalizeBody (registrationRequestJson body)
    if !(verifySolanaSignature ed message body.signature body.publicKey) then
      (.invalidSignature, s)
    else
      match registerCasino now freshId body s with
      | .error _ => (.alreadyExists, s)
      | .ok (casino, s1) => (.created casino, s1)

/-- Outcome of the heartbeat route. -/
inductive HeartbeatRouteOutcome where
  | notFound
  | invalidSignature
  | ok (ack : HeartbeatAck)
deriving DecidableEq

/-- POST /api/casinos/heartbeat after body validation: the handler looks the
casino up by id first and replies not found without any signature work when
it is absent; otherwise it verifies the signature over the canonicalized
body against the stored public key and only then calls updateHeartbeat.
The boolean in the result records whether signature verification ran. -/
def heartbeatRoute (ed : EdVerify) (now : Int) (hbId : String)
    (body : HeartbeatPayload) (s : Store) : HeartbeatRouteOutcome × Store × Bool :=
  match findUniqueById s body.casinoId with
  | none => (.notFound, s, false)
  | some casino =>
    let message := canonicalizeBody (heartbeatPayloadJson body)
    if verifySolanaSignature ed message body.signature casino.publicKey then
      match updateHeartbeat now hbId body s with
      | .ok (ack, s1) => (.ok ack, s1, true)
      | .error _ => (.notFound, s, true)
    else (.invalidSignature, s, true)

/- ## Uniqueness invariant of the store -/

/-- The public key is unique across all casino records. -/
def pksUnique (s : Store) : Prop :=
  (s.casinos.map (fun c => c.publicKey)).Nodup

/- ## Concrete fixtures used by counterexamples and witnesses -/

/-- Crypto core that accepts everything; the theorems quantify over the
core, the fixtures pick this one. -/
def edTrue : EdVerify := fun _ _ _ => true

/-- A well-formed Solana public key string: 32 base58 zero digits decode to
the 32-byte zero key (the system program address). -/
def pkOnes32 : String := "11111111111111111111111111111111"

/-- A base58 signature string decoding to 64 zero bytes. -/
def sigOnes64 : String := String.mk (List.replicate 64 '1')

/-- Empty raw registration metadata: every optional member unspecified. -/
def rawMetaNone : RegistrationMetadataRaw :=
  { description := none, games := none, logo := none, banner := none,
    socialLinks := none, maxBetAmount := none, minBetAmount := none,
    supportedTokens := none }

/-- A parsed registration request over the fixture key pair. -/
def regBody : RegistrationRequest :=
  { name := "N", url := "u", publicKey := pkOnes32, signature := sigOnes64,
    metadata := parseRegistrationMetadata rawMetaNone }

/-- A stored casino that has never heartbeated. -/
def casinoNull : Casino :=
  { id := "a", publicKey := pkOnes32, name := "A", url := "u", status := .online,
    description := none, games := [], logo := none, banner := none,
    twitterUrl := none, discordUrl := none, telegramUrl := none, websiteUrl := none,
    maxBetAmount := none, minBetAmount := none, supportedTokens := ["SOL"],
    createdAt := 0, updatedAt := 0, lastHeartbeat := none, version := "1.0.0" }

/-- A stored casino last seen at time 100. -/
def casinoSeen : Casino :=
  { casinoNull with id := "b", publicKey := "pkBb", lastHeartbeat := some 100 }

/-- Store holding the seen casino before the never-seen one. -/
def storeTwo : Store := { casinos := [casinoSeen, casinoNull], heartbeats := [] }

/-- The empty store. -/
def storeEmpty : Store := { casinos := [], heartbeats := [] }

/-- Expected store after sweeping storeTwo with the seen casino stale. -/
def storeTwoSwept : Store :=
  { casinos := [{ casinoSeen with status := CasinoStatus.offline }, casinoNull],
    heartbeats := [] }

/-- Store holding a casino that already owns the fixture public key. -/
def storeDup : Store := { casinos := [casinoNull], heartbeats := [] }

/-- Store holding one casino under id c1. -/
def storeC1 : Store := { casinos := [{ casinoNull with id := "c1" }], heartbeats := [] }

/-- Default discovery filters after parsing: no status filter, no games
filter, limit 20, offset 0. -/
def filtersDefault : CasinoFilters := { status := none, games := none, limit := 20, offset := 0 }

/-- Heartbeat payload claiming client time 5 for casino c1. -/
def hbClient : HeartbeatPayload :=
  { casinoId := "c1", status := .online, timestamp := 5, metrics := none,
    signature := sigOnes64 }

/-- Expected heartbeat record appended by updateHeartbeat for hbClient. -/
def hbClientRecord : HeartbeatRecord :=
  { id := "h1", casinoId := "c1", status := .online, activePlayers := none,
    totalBets24h := none, uptime := none, responseTime := none,
    signature := sigOnes64, timestamp := 5 }

/-- Expected store after the hbClient heartbeat at server time 1000. -/
def storeC1AfterHb : Store :=
  { casinos := [{ casinoNull with id := "c1", lastHeartbeat := some 5, updatedAt := 1000 }],
    heartbeats := [hbClientRecord] }

/-- Update metadata block setting only the description. -/
def updMetaOnlyDescription : UpdateMetadata :=
  { description := some "new", games := none, logo := none, banner := none,
    socialLinks := none, maxBetAmount := none, minBetAmount := none,
    supportedTokens := none }

/-- Update request setting only the metadata description. -/
def updOnlyDescription : CasinoUpdateRequest :=
  { casinoId := "c1", name := none, url := none, status := none,
    metadata := some updMetaOnlyDescription, signature := sigOnes64 }

/-- Expected casino record after updOnlyDescription at server time 99. -/
def casinoC1AfterUpd : Casino :=
  { casinoNull with id := "c1", description := some "new", updatedAt := 99 }

/-- Expected store after updOnlyDescription at server time 99. -/
def storeC1AfterUpd : Store := { casinos := [casinoC1AfterUpd], heartbeats := [] }

/-- Expected casino record created for regBody at server time 7. -/
def casinoRegistered : Casino :=
  { id := "id1", publicKey := pkOnes32, name := "N", url := "u", status := .online,
    description := none, games := [], logo := none, banner := none,
    twitterUrl := none, discordUrl := none, telegramUrl := none, websiteUrl := none,
    maxBetAmount := none, minBetAmount := none, supportedTokens := ["SOL"],
    createdAt := 7, updatedAt := 7, lastHeartbeat := none, version := "1.0.0" }

/-- Store holding only the expected fixture registration. -/
def storeRegistered : Store := { casinos := [casinoRegistered], heartbeats := [] }

/-- A payload whose nested metadata object has members that are not
top-level member names. -/
def cexPayload : Json :=
  .obj [("metadata", .obj [("description", .str "x")]), ("name", .str "n")]

/-- A nested payload in one member insertion order. -/
def payloadOrdered : Json :=
  .obj [("name", .str "n"),
    ("metadata", .obj [("games", .arr [.str "slots"]), ("description", .str "d")])]

/-- The same payload as payloadOrdered with every object level inserted in
the opposite member order. -/
def payloadReordered : Json :=
  .obj [("metadata", .obj [("description", .str "d"), ("games", .arr [.str "slots"])]),
    ("name", .str "n")]

/- # Theorems -/

/-- Projections distribute over Option.elim. -/
theorem optionElim_proj {α β γ : Type} (x : Option α) (c : β) (f : α → β) (g : β → γ) :
    g (x.elim c f) = x.elim (g c) (fun v => g (f v)) := by
  cases x <;> rfl

/-- Option.elim with equal branches collapses. -/
theorem optionElim_const {α β : Type} (x : Option α) (y : β) :
    x.elim y (fun _ => y) = y := by
  cases x <;> rfl

/-- Claim C4: a heartbeat for an unregistered participant id is answered
with the not-found outcome, signature verification is never invoked (the
trailing boolean of the route result), and the store is returned unchanged. -/
theorem C4_heartbeat_not_found (ed : EdVerify) (now : Int) (hbId : String)
    (body : HeartbeatPayload) (s : Store)
    (h : findUniqueById s body.casinoId = none) :
    heartbeatRoute ed now hbId body s = (.notFound, s, false) := by
  simp [heartbeatRoute, h]

/-- Witness for C4 at a concrete heartbeat against the empty store. -/
theorem C4_heartbeat_not_found_witness :
    heartbeatRoute edTrue 0 "h" hbClient storeEmpty = (.notFound, storeEmpty, false) :=
  C4_heartbeat_not_found edTrue 0 "h" hbClient storeEmpty rfl

/-- Claim C7: one sweep invocation transitions exactly the participants
whose lastSeenAt is older than now minus the timeout and whose status is
not already offline, returns their count, leaves every other participant
untouched, and an already offline participant never satisfies the sweep
condition. -/
theorem C7_sweeper_exact (timeoutMinutes now : Int) (s : Store) (n : Nat) (s1 : Store)
    (h : markInactiveCasinos timeoutMinutes now s = (n, s1)) :
    n = (s.casinos.filter (sweepCondition (now - timeoutMinutes * 60 * 1000))).length ∧
    (∀ c : Casino, c.status = .offline →
      sweepCondition (now - timeoutMinutes * 60 * 1000) c = false) ∧
    s1.heartbeats = s.heartbeats ∧
    s1.casinos.length = s.casinos.length ∧
    (∀ i (hi : i < s.casinos.length) (hi1 : i < s1.casinos.length),
      (sweepCondition (now - timeoutMinutes * 60 * 1000) s.casinos[i] = true →
        s1.casinos[i] = { s.casinos[i] with status := CasinoStatus.offline }) ∧
      (sweepCondition (now - timeoutMinutes * 60 * 1000) s.casinos[i] = false →
        s1.casinos[i] = s.casinos[i])) := by
  simp only [markInactiveCasinos] at h
  injection h with hn hs
  subst hn hs
  refine ⟨(List.countP_eq_length_filter _ _), ?_, rfl, by simp, ?_⟩
  · intro c hc
    simp [sweepCondition, hc]
  · intro i hi hi1
    constructor
    · intro hcond
      simp [List.getElem_map, hcond]
    · intro hcond
      simp [List.getElem_map, hcond]

/-- Witness for C7 on the two-casino fixture store at a time where the seen
casino is stale. -/
theorem C7_sweeper_exact_witness :
    (1 : Nat) = (storeTwo.casinos.filter
      (sweepCondition ((600200 : Int) - 10 * 60 * 1000))).length ∧
    (∀ c : Casino, c.status = .offline →
      sweepCondition ((600200 : Int) - 10 * 60 * 1000) c = false) ∧
    storeTwoSwept.heartbeats = storeTwo.heartbeats ∧
    storeTwoSwept.casinos.length = storeTwo.casinos.length ∧
    (∀ i (hi : i < storeTwo.casinos.length) (hi1 : i < storeTwoSwept.casinos.length),
      (sweepCondition ((600200 : Int) - 10 * 60 * 1000) storeTwo.casinos[i] = true →
        storeTwoSwept.casinos[i] = { storeTwo.casinos[i] with status := CasinoStatus.offline }) ∧
      (sweepCondition ((600200 : Int) - 10 * 60 * 1000) storeTwo.casinos[i] = false →
        storeTwoSwept.casinos[i] = storeTwo.casinos[i])) :=
  C7_sweeper_exact 10 600200 storeTwo 1 storeTwoSwept (by decide)

/-- Claim C10: a participant that never heartbeated (lastSeenAt null) never
satisfies the sweep condition, is never modified by the sweep, and never
contributes to the returned count, whatever its status and age. -/
theorem C10_never_seen_never_swept (timeoutMinutes now : Int) (s : Store) (n : Nat) (s1 : Store)
    (h : markInactiveCasinos timeoutMinutes now s = (n, s1)) :
    (∀ c : Casino, c.lastHeartbeat = none →
      sweepCondition (now - timeoutMinutes * 60 * 1000) c = false) ∧
    (∀ i (hi : i < s.casinos.length) (hi1 : i < s1.casinos.length),
      (s.casinos[i]).lastHeartbeat = none → s1.casinos[i] = s.casinos[i]) ∧
    n = (s.casinos.filter (fun c => c.lastHeartbeat.isSome &&
          sweepCondition (now - timeoutMinutes * 60 * 1000) c)).length := by
  have hnone : ∀ c : Casino, c.lastHeartbeat = none →
      sweepCondition (now - timeoutMinutes * 60 * 1000) c = false := by
    intro c hc
    simp [sweepCondition, hc]
  simp only [markInactiveCasinos] at h
  injection h with hn hs
  subst hn hs
  refine ⟨hnone, ?_, ?_⟩
  · intro i hi hi1 hnull
    simp [List.getElem_map, hnone _ hnull]
  · have hpt : ∀ c : Casino,
        sweepCondition (now - timeoutMinutes * 60 * 1000) c =
          (c.lastHeartbeat.isSome && sweepCondition (now - timeoutMinutes * 60 * 1000) c) := by
      intro c
      cases hc : c.lastHeartbeat with
      | none => simp [hnone c hc]
      | some t => simp
    rw [List.countP_eq_length_filter]
    exact congrArg List.length (List.filter_congr (fun c _ => (hpt c).symm)).symm

/-- Witness for C10: in the fixture sweep the never-seen casino is
untouched and only the stale seen casino is counted. -/
theorem C10_never_seen_never_swept_witness :
    (∀ c : Casino, c.lastHeartbeat = none →
      sweepCondition ((600200 : Int) - 10 * 60 * 1000) c = false) ∧
    (∀ i (hi : i < storeTwo.casinos.length) (hi1 : i < storeTwoSwept.casinos.length),
      (storeTwo.casinos[i]).lastHeartbeat = none →
        storeTwoSwept.casinos[i] = storeTwo.casinos[i]) ∧
    (1 : Nat) = (storeTwo.casinos.filter (fun c => c.lastHeartbeat.isSome &&
          sweepCondition ((600200 : Int) - 10 * 60 * 1000) c)).length :=
  C10_never_seen_never_swept 10 600200 storeTwo 1 storeTwoSwept (by decide)

/-- Claim C2 counterexample: at client-claimed time 5 and server time 1000,
the accepted heartbeat stores 5, not 1000, both in the heartbeat record and
in lastSeenAt, refuting the claim that the server time is stored. -/
theorem C2_counterexample :
    (updateHeartbeat 1000 "h1" hbClient storeC1).toOption =
      some ({ success := true, timestamp := 1000, nextHeartbeatIn := 60 }, storeC1AfterHb) ∧
    storeC1AfterHb.heartbeats.map (fun r => r.timestamp) = [5] ∧
    storeC1AfterHb.casinos.map (fun c => c.lastHeartbeat) = [some 5] ∧
    (5 : Int) ≠ 1000 := by decide

/-- Claim C2 (amended): the accepted heartbeat stores the client-claimed
timestamp from the payload, both as the heartbeat record timestamp and as
the participant lastSeenAt; only the returned acknowledgement carries the
server time. -/
theorem C2_heartbeat_stores_client_time (now : Int) (hbId : String)
    (input : HeartbeatPayload) (s : Store) (ack : HeartbeatAck) (s1 : Store)
    (h : updateHeartbeat now hbId input s = .ok (ack, s1)) :
    (∃ r : HeartbeatRecord, s1.heartbeats = s.heartbeats ++ [r] ∧
      r.id = hbId ∧ r.timestamp = input.timestamp ∧ r.status = input.status ∧
      r.signature = input.signature) ∧
    (∀ c1 ∈ s1.casinos, c1.id = input.casinoId →
      c1.lastHeartbeat = some input.timestamp ∧ c1.status = input.status) ∧
    ack = { success := true, timestamp := now, nextHeartbeatIn := 60 } := by
  simp only [updateHeartbeat] at h
  cases hf : findUniqueById s input.casinoId with
  | none => rw [hf] at h; exact absurd h (by simp)
  | some casino =>
    rw [hf] at h
    simp only [Except.ok.injEq, Prod.mk.injEq] at h
    obtain ⟨hack, hs1⟩ := h
    subst hack
    subst hs1
    have hcid : casino.id = input.casinoId := by
      have := List.find?_some hf
      simpa using this
    refine ⟨⟨_, rfl, rfl, rfl, rfl, rfl⟩, ?_, rfl⟩
    intro c1 hc1 hid
    simp only [updateCasinoRecord, List.mem_map] at hc1
    obtain ⟨c0, hc0, hc0eq⟩ := hc1
    by_cases hb : (c0.id == casino.id) = true
    · rw [if_pos hb] at hc0eq
      subst hc0eq
      exact ⟨rfl, rfl⟩
    · rw [if_neg (by simpa using hb)] at hc0eq
      subst hc0eq
      exact absurd (hid.trans hcid.symm) (by simpa using hb)

/-- Witness for C2 (amended) at the concrete fixture heartbeat. -/
theorem C2_heartbeat_stores_client_time_witness :
    (∃ r : HeartbeatRecord, storeC1AfterHb.heartbeats = storeC1.heartbeats ++ [r] ∧
      r.id = "h1" ∧ r.timestamp = hbClient.timestamp ∧ r.status = hbClient.status ∧
      r.signature = hbClient.signature) ∧
    (∀ c1 ∈ storeC1AfterHb.casinos, c1.id = hbClient.casinoId →
      c1.lastHeartbeat = some hbClient.timestamp ∧ c1.status = hbClient.status) ∧
    ({ success := true, timestamp := 1000, nextHeartbeatIn := 60 } : HeartbeatAck) =
      { success := true, timestamp := 1000, nextHeartbeatIn := 60 } :=
  C2_heartbeat_stores_client_time 1000 "h1" hbClient storeC1
    { success := true, timestamp := 1000, nextHeartbeatIn := 60 } storeC1AfterHb rfl

/-- Claim C8: a successful registration creates the participant with status
online, no lastSeenAt, the protocol version literal 1.0.0, and the metadata
defaults: empty games list and the single default token when unspecified;
the record is appended to the store and nothing else changes. -/
theorem C8_registration_record (now : Int) (freshId nm u pk sig : String)
    (raw : RegistrationMetadataRaw) (s : Store) (c : Casino) (s1 : Store)
    (h : registerCasino now freshId
        { name := nm, url := u, publicKey := pk, signature := sig,
          metadata := parseRegistrationMetadata raw } s = .ok (c, s1)) :
    c.status = .online ∧ c.lastHeartbeat = none ∧
    c.version = serviceProtocolVersion ∧ serviceProtocolVersion = "1.0.0" ∧
    (raw.games = none → c.games = []) ∧
    (raw.supportedTokens = none →
      c.supportedTokens = ["SOL"] ∧ c.supportedTokens.length = 1) ∧
    s1.casinos = s.casinos ++ [c] ∧ s1.heartbeats = s.heartbeats := by
  simp only [registerCasino] at h
  cases hf : findUniqueByPublicKey s pk with
  | some c0 => rw [hf] at h; exact absurd h (by simp)
  | none =>
    rw [hf] at h
    simp only [Except.ok.injEq, Prod.mk.injEq] at h
    obtain ⟨hc, hs1⟩ := h
    subst hc
    refine ⟨rfl, rfl, rfl, rfl, ?_, ?_, by rw [← hs1], by rw [← hs1]⟩
    · intro hg
      simp [parseRegistrationMetadata, hg]
    · intro ht
      simp [parseRegistrationMetadata, ht]

/-- Witness for C8 at the fixture registration against the empty store. -/
theorem C8_registration_record_witness :
    casinoRegistered.status = .online ∧ casinoRegistered.lastHeartbeat = none ∧
    casinoRegistered.version = serviceProtocolVersion ∧ serviceProtocolVersion = "1.0.0" ∧
    (rawMetaNone.games = none → casinoRegistered.games = []) ∧
    (rawMetaNone.supportedTokens = none →
      casinoRegistered.supportedTokens = ["SOL"] ∧
      casinoRegistered.supportedTokens.length = 1) ∧
    storeRegistered.casinos = storeEmpty.casinos ++ [casinoRegistered] ∧
    storeRegistered.heartbeats = storeEmpty.heartbeats :=
  C8_registration_record 7 "id1" "N" "u" pkOnes32 sigOnes64 rawMetaNone
    storeEmpty casinoRegistered storeRegistered rfl

/-- Claim C5: a registration whose public key is already registered fails at
the service with the already-exists condition; every non-created route
outcome leaves the store unchanged; and the route preserves the public key
uniqueness invariant. -/
theorem C5_registration_uniqueness (ed : EdVerify) (now : Int) (freshId : String)
    (body : RegistrationRequest) (s : Store) :
    (∀ c0, findUniqueByPublicKey s body.publicKey = some c0 →
      registerCasino now freshId body s = .error .casinoAlreadyExists) ∧
    (∀ out s1, registerRoute ed now freshId body s = (out, s1) →
      ((∀ c, out ≠ .created c) → s1 = s) ∧
      (pksUnique s → pksUnique s1)) := by
  constructor
  · intro c0 h0
    simp [registerCasino, h0]
  · intro out s1 h
    simp only [registerRoute] at h
    split at h
    · injection h with h1 h2; subst h2; exact ⟨fun _ => rfl, fun hu => hu⟩
    · split at h
      · injection h with h1 h2; subst h2; exact ⟨fun _ => rfl, fun hu => hu⟩
      · split at h
        · injection h with h1 h2; subst h2; exact ⟨fun _ => rfl, fun hu => hu⟩
        · split at h
          · injection h with h1 h2; subst h2; exact ⟨fun _ => rfl, fun hu => hu⟩
          · rename_i hreg
            split at h
            · injection h with h1 h2; subst h2; exact ⟨fun _ => rfl, fun hu => hu⟩
            · rename_i casino s2 hok
              injection h with h1 h2
              subst h1 h2
              constructor
              · intro habs
                exact absurd rfl (habs casino)
              · intro hu
                simp only [registerCasino] at hok
                cases hf : findUniqueByPublicKey s body.publicKey with
                | some c0 => rw [hf] at hok; exact absurd hok (by simp)
                | none =>
                  rw [hf] at hok
                  simp only [Except.ok.injEq, Prod.mk.injEq] at hok
                  obtain ⟨hc, hs2⟩ := hok
                  subst hc
                  subst hs2
                  simp only [pksUnique, List.map_append, List.map_cons, List.map_nil]
                  rw [List.nodup_append]
                  refine ⟨hu, by simp, ?_⟩
                  intro a ha hb
                  simp only [List.mem_map] at ha
                  obtain ⟨cx, hcx, hcxa⟩ := ha
                  simp only [List.mem_singleton] at hb
                  have hne := List.find?_eq_none.mp hf cx hcx
                  apply hne
                  subst hcxa
                  simp only [hb]
                  simp

/-- Witness for C5: registering the fixture body against a store already
holding its public key yields the already-exists error. -/
theorem C5_registration_uniqueness_witness :
    registerCasino 7 "id1" regBody storeDup = .error .casinoAlreadyExists :=
  (C5_registration_uniqueness edTrue 7 "id1" regBody storeDup).1 casinoNull (by decide)

/-- Normal form of the socialLinks merge: each flattened column is the
submitted sub-field when present, the stored value otherwise. -/
theorem applySocialLinksUpdate_eq (sl : SocialLinksInput) (c : Casino) :
    applySocialLinksUpdate sl c =
      { c with
        twitterUrl := sl.twitter.elim c.twitterUrl some
        discordUrl := sl.discord.elim c.discordUrl some
        telegramUrl := sl.telegram.elim c.telegramUrl some
        websiteUrl := sl.website.elim c.websiteUrl some } := by
  obtain ⟨tw, di, te, we⟩ := sl
  cases tw <;> cases di <;> cases te <;> cases we <;> rfl

set_option maxHeartbeats 1000000 in
/-- Normal form of the metadata merge: each column is the submitted member
when present, the stored value otherwise, one level deep. -/
theorem applyMetadataUpdate_eq (md : UpdateMetadata) (c : Casino) :
    applyMetadataUpdate md c =
      { c with
        description := md.description.elim c.description some
        games := md.games.elim c.games (fun v => v)
        logo := md.logo.elim c.logo some
        banner := md.banner.elim c.banner some
        twitterUrl := (md.socialLinks.bind (fun sl => sl.twitter)).elim c.twitterUrl some
        discordUrl := (md.socialLinks.bind (fun sl => sl.discord)).elim c.discordUrl some
        telegramUrl := (md.socialLinks.bind (fun sl => sl.telegram)).elim c.telegramUrl some
        websiteUrl := (md.socialLinks.bind (fun sl => sl.website)).elim c.websiteUrl some
        maxBetAmount := md.maxBetAmount.elim c.maxBetAmount some
        minBetAmount := md.minBetAmount.elim c.minBetAmount some
        supportedTokens := md.supportedTokens.elim c.supportedTokens (fun v => v) } := by
  obtain ⟨de, ga, lo, ba, so, mx, mn, tk⟩ := md
  cases de <;> cases ga <;> cases lo <;> cases ba <;> cases so <;> cases mx <;> cases mn <;>
    cases tk <;> simp [applyMetadataUpdate, applySocialLinksUpdate_eq]

/-- Normal form of the whole update merge: every column is the submitted
member when present, the stored value otherwise. -/
theorem applyCasinoUpdate_eq (input : CasinoUpdateRequest) (c0 : Casino) :
    applyCasinoUpdate input c0 =
      { c0 with
        name := input.name.elim c0.name (fun v => v)
        url := input.url.elim c0.url (fun v => v)
        status := input.status.elim c0.status (fun v => v)
        description := (input.metadata.bind (fun md => md.description)).elim c0.description some
        games := (input.metadata.bind (fun md => md.games)).elim c0.games (fun v => v)
        logo := (input.metadata.bind (fun md => md.logo)).elim c0.logo some
        banner := (input.metadata.bind (fun md => md.banner)).elim c0.banner some
        twitterUrl := ((input.metadata.bind (fun md => md.socialLinks)).bind
          (fun sl => sl.twitter)).elim c0.twitterUrl some
        discordUrl := ((input.metadata.bind (fun md => md.socialLinks)).bind
          (fun sl => sl.discord)).elim c0.discordUrl some
        telegramUrl := ((input.metadata.bind (fun md => md.socialLinks)).bind
          (fun sl => sl.telegram)).elim c0.telegramUrl some
        websiteUrl := ((input.metadata.bind (fun md => md.socialLinks)).bind
          (fun sl => sl.website)).elim c0.websiteUrl some
        maxBetAmount := (input.metadata.bind (fun md => md.maxBetAmount)).elim
          c0.maxBetAmount some
        minBetAmount := (input.metadata.bind (fun md => md.minBetAmount)).elim
          c0.minBetAmount some
        supportedTokens := (input.metadata.bind (fun md => md.supportedTokens)).elim
          c0.supportedTokens (fun v => v) } := by
  obtain ⟨cid, nm, ur, st, mdo, sig⟩ := input
  cases nm <;> cases ur <;> cases st <;> cases mdo <;>
    simp [applyCasinoUpdate, applyMetadataUpdate_eq]

/-- Claim C6: the update path merges only the members present in the input,
one metadata level deep; absent members and absent metadata sub-members
keep their stored values; id, publicKey, createdAt and protocolVersion are
never mutated; records under other ids are untouched. -/
theorem C6_update_partial_merge (now : Int) (input : CasinoUpdateRequest) (s : Store)
    (c1 : Casino) (s1 : Store)
    (h : updateCasino now input s = .ok (c1, s1)) :
    ∃ c0, findUniqueById s input.casinoId = some c0 ∧
      c1.id = c0.id ∧ c1.publicKey = c0.publicKey ∧ c1.createdAt = c0.createdAt ∧
      c1.version = c0.version ∧
      (input.name = none → c1.name = c0.name) ∧
      (∀ v, input.name = some v → c1.name = v) ∧
      (input.url = none → c1.url = c0.url) ∧
      (input.status = none → c1.status = c0.status) ∧
      (input.metadata = none →
        c1.description = c0.description ∧ c1.games = c0.games ∧ c1.logo = c0.logo ∧
        c1.banner = c0.banner ∧ c1.twitterUrl = c0.twitterUrl ∧
        c1.discordUrl = c0.discordUrl ∧ c1.telegramUrl = c0.telegramUrl ∧
        c1.websiteUrl = c0.websiteUrl ∧ c1.maxBetAmount = c0.maxBetAmount ∧
        c1.minBetAmount = c0.minBetAmount ∧ c1.supportedTokens = c0.supportedTokens) ∧
      (∀ md, input.metadata = some md →
        (md.description = none → c1.description = c0.description) ∧
        (∀ v, md.description = some v → c1.description = some v) ∧
        (md.games = none → c1.games = c0.games) ∧
        (md.logo = none → c1.logo = c0.logo) ∧
        (md.banner = none → c1.banner = c0.banner) ∧
        (md.socialLinks = none →
          c1.twitterUrl = c0.twitterUrl ∧ c1.discordUrl = c0.discordUrl ∧
          c1.telegramUrl = c0.telegramUrl ∧ c1.websiteUrl = c0.websiteUrl) ∧
        (∀ sl, md.socialLinks = some sl →
          (sl.twitter = none → c1.twitterUrl = c0.twitterUrl) ∧
          (sl.discord = none → c1.discordUrl = c0.discordUrl) ∧
          (sl.telegram = none → c1.telegramUrl = c0.telegramUrl) ∧
          (sl.website = none → c1.websiteUrl = c0.websiteUrl)) ∧
        (md.maxBetAmount = none → c1.maxBetAmount = c0.maxBetAmount) ∧
        (md.minBetAmount = none → c1.minBetAmount = c0.minBetAmount) ∧
        (md.supportedTokens = none → c1.supportedTokens = c0.supportedTokens)) ∧
      (∀ d ∈ s.casinos, d.id ≠ input.casinoId → d ∈ s1.casinos) := by
  simp only [updateCasino] at h
  cases hf : findUniqueById s input.casinoId with
  | none => rw [hf] at h; exact absurd h (by simp)
  | some c0 =>
    rw [hf] at h
    simp only [Except.ok.injEq, Prod.mk.injEq] at h
    obtain ⟨hc, hs⟩ := h
    subst hc
    subst hs
    have hcid : c0.id = input.casinoId := by simpa using List.find?_some hf
    refine ⟨c0, rfl, ?_, ?_, ?_, ?_, ?_, ?_, ?_, ?_, ?_, ?_, ?_⟩
    · simp [applyCasinoUpdate_eq]
    · simp [applyCasinoUpdate_eq]
    · simp [applyCasinoUpdate_eq]
    · simp [applyCasinoUpdate_eq]
    · intro hn
      simp [applyCasinoUpdate_eq, hn]
    · intro v hv
      simp [applyCasinoUpdate_eq, hv]
    · intro hu
      simp [applyCasinoUpdate_eq, hu]
    · intro hst
      simp [applyCasinoUpdate_eq, hst]
    · intro hmd
      refine ⟨?_, ?_, ?_, ?_, ?_, ?_, ?_, ?_, ?_, ?_, ?_⟩ <;> simp [applyCasinoUpdate_eq, hmd]
    · intro md hmd
      refine ⟨?_, ?_, ?_, ?_, ?_, ?_, ?_, ?_, ?_, ?_⟩
      · intro hx
        simp [applyCasinoUpdate_eq, hmd, hx]
      · intro v hx
        simp [applyCasinoUpdate_eq, hmd, hx]
      · intro hx
        simp [applyCasinoUpdate_eq, hmd, hx]
      · intro hx
        simp [applyCasinoUpdate_eq, hmd, hx]
      · intro hx
        simp [applyCasinoUpdate_eq, hmd, hx]
      · intro hx
        simp [applyCasinoUpdate_eq, hmd, hx]
      · intro sl hsl
        refine ⟨?_, ?_, ?_, ?_⟩ <;> intro hx <;> simp [applyCasinoUpdate_eq, hmd, hsl, hx]
      · intro hx
        simp [applyCasinoUpdate_eq, hmd, hx]
      · intro hx
        simp [applyCasinoUpdate_eq, hmd, hx]
      · intro hx
        simp [applyCasinoUpdate_eq, hmd, hx]
    · intro d hd hdid
      simp only [updateCasinoRecord, List.mem_map]
      refine ⟨d, hd, ?_⟩
      rw [if_neg]
      simp only [beq_iff_eq]
      rw [hcid]
      exact hdid

/-- The page order relation is total. -/
theorem hbDescRel_total (a b : Casino) : hbDescRel a b ∨ hbDescRel b a := by
  unfold hbDescRel lastHeartbeatDescBefore
  cases a.lastHeartbeat <;> cases b.lastHeartbeat <;> simp <;> omega

/-- The page order relation is transitive. -/
theorem hbDescRel_trans (a b c : Casino) :
    hbDescRel a b → hbDescRel b c → hbDescRel a c := by
  unfold hbDescRel lastHeartbeatDescBefore
  cases a.lastHeartbeat <;> cases b.lastHeartbeat <;> cases c.lastHeartbeat <;> simp <;> omega

/-- In the page order, anything placed at or before a never-seen record is
itself never seen. -/
theorem hbDescRel_none (a b : Casino) (h : hbDescRel a b)
    (hb : b.lastHeartbeat = none) : a.lastHeartbeat = none := by
  unfold hbDescRel lastHeartbeatDescBefore at h
  rw [hb] at h
  cases ha : a.lastHeartbeat with
  | none => rfl
  | some t => rw [ha] at h; simp at h

/-- Claim C3 counterexample: with one never-seen and one seen participant,
the returned page puts the never-seen participant first (PostgreSQL DESC
default is NULLS FIRST), refuting the claim that unseen participants sort
last; the total is nevertheless the full matching count. -/
theorem C3_counterexample :
    (getCasinos filtersDefault storeTwo).casinos = [casinoNull, casinoSeen] ∧
    (getCasinos filtersDefault storeTwo).total = 2 ∧
    casinoNull.lastHeartbeat = none ∧ casinoSeen.lastHeartbeat = some 100 ∧
    [casinoNull, casinoSeen] ≠ [casinoSeen, casinoNull] := by decide

/-- Claim C3 (amended): the discovery query sorts all matching records by
descending lastSeenAt with never-seen (null) participants first, every page
is a window of that one sorted arrangement (so pages are disjoint and
exhaustive), and the returned total is the count of all matching records,
not just the page. -/
theorem C3_discovery_page_order_and_total (f : CasinoFilters) (s : Store) :
    ∃ all : List Casino,
      all.Perm (s.casinos.filter (matchesFilters f)) ∧
      List.Sorted hbDescRel all ∧
      (∀ i j : Fin all.length, i < j → (all.get j).lastHeartbeat = none →
        (all.get i).lastHeartbeat = none) ∧
      (getCasinos f s).total = all.length ∧
      (getCasinos f s).total = (s.casinos.filter (matchesFilters f)).length ∧
      (∀ lim off, (getCasinos { f with limit := lim, offset := off } s).casinos =
        (all.drop off).take lim) ∧
      (getCasinos f s).casinos = (all.drop f.offset).take f.limit := by
  haveI : IsTotal Casino hbDescRel := ⟨hbDescRel_total⟩
  haveI : IsTrans Casino hbDescRel := ⟨hbDescRel_trans⟩
  refine ⟨List.insertionSort hbDescRel (s.casinos.filter (matchesFilters f)),
    List.perm_insertionSort _ _, List.sorted_insertionSort _ _, ?_, ?_, rfl, ?_, rfl⟩
  · intro i j hij hj
    have hp := (List.pairwise_iff_get.mp (List.sorted_insertionSort
      hbDescRel (s.casinos.filter (matchesFilters f)))) i j hij
    exact hbDescRel_none _ _ hp hj
  · exact ((List.perm_insertionSort hbDescRel _).length_eq).symm
  · intro lim off
    rfl

/-- Reduction of verifySolanaSignature when the signature fails to decode. -/
theorem verifySolanaSignature_sigFail (ed : EdVerify) (m sig pk : String)
    (h : base58Decode sig = none) : verifySolanaSignature ed m sig pk = false := by
  unfold verifySolanaSignature
  rw [h]

/-- Reduction of verifySolanaSignature when the public key is rejected. -/
theorem verifySolanaSignature_pkFail (ed : EdVerify) (m sig pk : String) (sb : List Nat)
    (hsb : base58Decode sig = some sb) (hpk : solanaPublicKeyBytes pk = none) :
    verifySolanaSignature ed m sig pk = false := by
  unfold verifySolanaSignature
  rw [hsb, hpk]

/-- Reduction of verifySolanaSignature when both decodes succeed. -/
theorem verifySolanaSignature_ok (ed : EdVerify) (m sig pk : String) (sb pb : List Nat)
    (hsb : base58Decode sig = some sb) (hpk : solanaPublicKeyBytes pk = some pb) :
    verifySolanaSignature ed m sig pk = naclSignDetachedVerify ed (utf8Encode m) sb pb := by
  unfold verifySolanaSignature
  rw [hsb, hpk]

/-- Bytes produced for a public key always have the checked length 32. -/
theorem solanaPublicKeyBytes_length (s : String) (bs : List Nat)
    (h : solanaPublicKeyBytes s = some bs) : bs.length = 32 := by
  unfold solanaPublicKeyBytes at h
  cases hd : base58Decode s with
  | none => rw [hd] at h; exact absurd h (by simp)
  | some l =>
    rw [hd] at h
    simp only [] at h
    by_cases hl : l.length = 32
    · rw [if_pos hl] at h
      injection h with h
      rw [← h]
      exact hl
    · rw [if_neg hl] at h
      exact absurd h (by simp)

/-- Claim C9: verifySolanaSignature is a total boolean function of its
inputs: any signature decode failure, malformed public key, wrong-length
signature, or core rejection produces the single uniform outcome false
(the try/catch turns every thrown error into false), and a true outcome
certifies that both decodes succeeded with the lengths tweetnacl checks
and that the Ed25519 core accepted the message. -/
theorem C9_verify_total_uniform (ed : EdVerify) (message signature publicKey : String) :
    (verifySolanaSignature ed message signature publicKey = false ∨
      verifySolanaSignature ed message signature publicKey = true) ∧
    (base58Decode signature = none →
      verifySolanaSignature ed message signature publicKey = false) ∧
    (solanaPublicKeyBytes publicKey = none →
      verifySolanaSignature ed message signature publicKey = false) ∧
    (∀ sigBytes, base58Decode signature = some sigBytes → sigBytes.length ≠ 64 →
      verifySolanaSignature ed message signature publicKey = false) ∧
    (∀ sigBytes pkBytes, base58Decode signature = some sigBytes →
      solanaPublicKeyBytes publicKey = some pkBytes →
      ed (utf8Encode message) sigBytes pkBytes = false →
      verifySolanaSignature ed message signature publicKey = false) ∧
    (verifySolanaSignature ed message signature publicKey = true →
      ∃ sigBytes pkBytes, base58Decode signature = some sigBytes ∧
        solanaPublicKeyBytes publicKey = some pkBytes ∧ sigBytes.length = 64 ∧
        pkBytes.length = 32 ∧ ed (utf8Encode message) sigBytes pkBytes = true) := by
  refine ⟨?_, ?_, ?_, ?_, ?_, ?_⟩
  · cases verifySolanaSignature ed message signature publicKey
    · exact Or.inl rfl
    · exact Or.inr rfl
  · intro h
    exact verifySolanaSignature_sigFail ed message signature publicKey h
  · intro h
    cases hs : base58Decode signature with
    | none => exact verifySolanaSignature_sigFail _ _ _ _ hs
    | some sb => exact verifySolanaSignature_pkFail _ _ _ _ sb hs h
  · intro sb hsb hlen
    cases hp : solanaPublicKeyBytes publicKey with
    | none => exact verifySolanaSignature_pkFail _ _ _ _ sb hsb hp
    | some pb =>
      rw [verifySolanaSignature_ok _ _ _ _ sb pb hsb hp]
      unfold naclSignDetachedVerify
      rw [if_pos hlen]
  · intro sb pb hsb hpb hed
    rw [verifySolanaSignature_ok _ _ _ _ sb pb hsb hpb]
    unfold naclSignDetachedVerify
    by_cases h64 : sb.length = 64
    · have h32 : pb.length = 32 := solanaPublicKeyBytes_length _ _ hpb
      rw [if_neg (by simpa using h64), if_neg (by simpa using h32)]
      exact hed
    · rw [if_pos (by simpa using h64)]
  · intro htrue
    cases hs : base58Decode signature with
    | none =>
      rw [verifySolanaSignature_sigFail _ _ _ _ hs] at htrue
      exact absurd htrue (by simp)
    | some sb =>
      cases hp : solanaPublicKeyBytes publicKey with
      | none =>
        rw [verifySolanaSignature_pkFail _ _ _ _ sb hs hp] at htrue
        exact absurd htrue (by simp)
      | some pb =>
        rw [verifySolanaSignature_ok _ _ _ _ sb pb hs hp] at htrue
        unfold naclSignDetachedVerify at htrue
        by_cases h64 : sb.length = 64
        · have h32 : pb.length = 32 := solanaPublicKeyBytes_length _ _ hp
          rw [if_neg (by simpa using h64), if_neg (by simpa using h32)] at htrue
          exact ⟨sb, pb, rfl, rfl, h64, h32, htrue⟩
        · rw [if_pos (by simpa using h64)] at htrue
          exact absurd htrue (by simp)

/-- Witness for C9: an invalid base58 signature digit yields false. -/
theorem C9_verify_total_uniform_witness :
    verifySolanaSignature edTrue "m" "0" pkOnes32 = false :=
  (C9_verify_total_uniform edTrue "m" "0" pkOnes32).2.1 (by decide)

/-- Totality of the char-list order. -/
theorem charsLe_total : ∀ a b, charsLe a b = true ∨ charsLe b a = true := by
  intro a
  induction a with
  | nil => intro b; left; rfl
  | cons x xs ih =>
    intro b
    cases b with
    | nil => right; rfl
    | cons y ys =>
      simp only [charsLe]
      rcases Nat.lt_trichotomy x.toNat y.toNat with h | h | h
      · left; simp [h]
      · have hxy : ¬ x.toNat < y.toNat := by omega
        have hyx : ¬ y.toNat < x.toNat := by omega
        rcases ih ys with h2 | h2
        · left; simp [hxy, hyx, h2]
        · right; simp [hxy, hyx, h2]
      · right; simp [h, Nat.lt_asymm h]

/-- Transitivity of the char-list order. -/
theorem charsLe_trans : ∀ a b c, charsLe a b = true → charsLe b c = true →
    charsLe a c = true := by
  intro a
  induction a with
  | nil => intros; rfl
  | cons x xs ih =>
    intro b c hab hbc
    cases b with
    | nil => simp [charsLe] at hab
    | cons y ys =>
      cases c with
      | nil => simp [charsLe] at hbc
      | cons z zs =>
        simp only [charsLe] at hab hbc ⊢
        by_cases hxy : x.toNat < y.toNat
        · by_cases hyz : y.toNat < z.toNat
          · simp [show x.toNat < z.toNat by omega]
          · by_cases hzy : z.toNat < y.toNat
            · simp [hyz, hzy] at hbc
            · simp [show x.toNat < z.toNat by omega]
        · by_cases hyx : y.toNat < x.toNat
          · simp [hxy, hyx] at hab
          · by_cases hyz : y.toNat < z.toNat
            · simp [show x.toNat < z.toNat by omega]
            · by_cases hzy : z.toNat < y.toNat
              · simp [hyz, hzy] at hbc
              · have h1 : ¬ x.toNat < z.toNat := by omega
                have h2 : ¬ z.toNat < x.toNat := by omega
                simp only [hxy, hyx, if_false, if_true] at hab
                simp only [hyz, hzy, if_false, if_true] at hbc
                simp [h1, h2, ih ys zs hab hbc]

/-- Characters with equal code points are equal. -/
theorem charToNat_inj {a b : Char} (h : a.toNat = b.toNat) : a = b := by
  apply Char.eq_of_val_eq
  apply UInt32.eq_of_val_eq
  exact Fin.ext h

/-- Antisymmetry of the char-list order. -/
theorem charsLe_antisymm : ∀ a b, charsLe a b = true → charsLe b a = true → a = b := by
  intro a
  induction a with
  | nil =>
    intro b hab hba
    cases b with
    | nil => rfl
    | cons y ys => simp [charsLe] at hba
  | cons x xs ih =>
    intro b hab hba
    cases b with
    | nil => simp [charsLe] at hab
    | cons y ys =>
      simp only [charsLe] at hab hba
      by_cases hxy : x.toNat < y.toNat
      · simp [show ¬ y.toNat < x.toNat by omega, hxy] at hba
      · by_cases hyx : y.toNat < x.toNat
        · simp [hxy, hyx] at hab
        · have hx : x = y := charToNat_inj (by omega)
          simp only [hxy, hyx, if_false] at hab hba
          rw [hx, ih ys hab hba]

/-- The string sort order is total. -/
theorem strLeRel_total : ∀ a b : String, strLeRel a b ∨ strLeRel b a := by
  intro a b
  exact charsLe_total a.toList b.toList

/-- The string sort order is transitive. -/
theorem strLeRel_trans : ∀ a b c : String, strLeRel a b → strLeRel b c → strLeRel a c := by
  intro a b c
  exact charsLe_trans a.toList b.toList c.toList

/-- The string sort order is antisymmetric. -/
theorem strLeRel_antisymm : ∀ a b : String, strLeRel a b → strLeRel b a → a = b := by
  intro a b hab hba
  have h := charsLe_antisymm a.toList b.toList hab hba
  cases a
  cases b
  simp only [String.toList] at h
  rw [h]

/-- Two permuted name lists have the same sorted arrangement: the result of
Object.keys(x).sort() does not depend on the insertion order. -/
theorem insertionSortStrings_perm_eq (l1 l2 : List String) (h : l1.Perm l2) :
    List.insertionSort strLeRel l1 = List.insertionSort strLeRel l2 := by
  haveI : IsTotal String strLeRel := ⟨strLeRel_total⟩
  haveI : IsTrans String strLeRel := ⟨strLeRel_trans⟩
  haveI : IsAntisymm String strLeRel := ⟨strLeRel_antisymm⟩
  exact List.eq_of_perm_of_sorted
    (((List.perm_insertionSort _ l1).trans h).trans (List.perm_insertionSort _ l2).symm)
    (List.sorted_insertionSort _ _) (List.sorted_insertionSort _ _)

/-- Lookup commutes with the value transformation of jsonReplaceProps. -/
theorem lookup_jsonReplaceProps (K : List String) (k : String) :
    ∀ fs : List (String × Json),
      List.lookup k (jsonReplaceProps K fs) = (List.lookup k fs).map (jsonReplace K) := by
  intro fs
  induction fs with
  | nil => rfl
  | cons p fs ih =>
    obtain ⟨k0, v0⟩ := p
    simp only [jsonReplaceProps, List.lookup]
    cases hk : k == k0
    · simpa using ih
    · simp

/-- Pointwise related member lists carry the same names. -/
theorem structEqFields_keys : ∀ (fs gs : List (String × Json)), StructEqFields fs gs →
    fs.map Prod.fst = gs.map Prod.fst := by
  intro fs
  induction fs with
  | nil =>
    intro gs h
    cases h
    rfl
  | cons p fs ih =>
    intro gs h
    cases h with
    | cons hv hrest => simp [ih _ hrest]

/-- Lookup on pointwise related member lists: both miss, or both hit with
structurally equal values. -/
theorem structEqFields_lookup : ∀ (fs gs : List (String × Json)), StructEqFields fs gs →
    ∀ k, (List.lookup k fs = none ∧ List.lookup k gs = none) ∨
      (∃ v w, List.lookup k fs = some v ∧ List.lookup k gs = some w ∧ StructEq v w) := by
  intro fs
  induction fs with
  | nil =>
    intro gs h k
    cases h
    left
    exact ⟨rfl, rfl⟩
  | cons p fs ih =>
    intro gs h k
    cases h with
    | @cons k0 v w fs2 gs2 hv hrest =>
      simp only [List.lookup]
      cases hk : k == k0
      · exact ih _ hrest k
      · right
        exact ⟨v, w, rfl, rfl, hv⟩

/-- A successful lookup is a membership. -/
theorem lookup_mem (k : String) : ∀ (l : List (String × Json)) (v : Json),
    List.lookup k l = some v → (k, v) ∈ l := by
  intro l
  induction l with
  | nil => intro v h; exact absurd h (by simp)
  | cons p l ih =>
    obtain ⟨k0, v0⟩ := p
    intro v h
    simp only [List.lookup] at h
    cases hk : k == k0
    · rw [hk] at h
      exact List.mem_cons_of_mem _ (ih v h)
    · rw [hk] at h
      injection h with h
      have : k = k0 := by simpa using hk
      rw [this, h]
      exact List.mem_cons_self _ _

/-- Lookup is stable under permutation of a member list with distinct
names. -/
theorem lookup_perm_nodup : ∀ {l1 l2 : List (String × Json)}, l1.Perm l2 →
    (l1.map Prod.fst).Nodup → ∀ k, List.lookup k l1 = List.lookup k l2 := by
  intro l1 l2 h
  induction h with
  | nil => intro _ _; rfl
  | @cons p t1 t2 hperm ih =>
    intro hnd k
    obtain ⟨k0, v0⟩ := p
    simp only [List.lookup]
    cases hk : k == k0
    · exact ih (by simpa using (List.nodup_cons.mp (by simpa using hnd)).2) k
    · rfl
  | @swap p q t =>
    intro hnd k
    obtain ⟨k0, v0⟩ := p
    obtain ⟨k1, v1⟩ := q
    have hne : k1 ≠ k0 := by
      simp only [List.map_cons, List.nodup_cons] at hnd
      intro he
      exact hnd.1 (by simp [he])
    simp only [List.lookup]
    cases hk1 : k == k1 <;> cases hk0 : k == k0 <;> try rfl
    have e1 : k = k1 := by simpa using hk1
    have e0 : k = k0 := by simpa using hk0
    exact absurd (e1.symm.trans e0) hne
  | @trans t1 t2 t3 h12 h23 ih12 ih23 =>
    intro hnd k
    have hnd2 : (t2.map Prod.fst).Nodup := ((h12.map Prod.fst).nodup_iff).mp hnd
    exact (ih12 hnd k).trans (ih23 hnd2 k)

/-- Elementwise congruence helper for arrays, at bounded size. -/
theorem jsonReplaceElems_congr_aux (K : List String) (n : Nat)
    (ih : ∀ a b : Json, sizeOf a ≤ n → StructEq a b → WFJson b →
      jsonReplace K a = jsonReplace K b) :
    ∀ (xs ys : List Json), StructEqList xs ys → sizeOf xs ≤ n →
      (∀ y ∈ ys, WFJson y) → jsonReplaceElems K xs = jsonReplaceElems K ys := by
  intro xs
  induction xs with
  | nil =>
    intro ys h _ _
    cases h
    rfl
  | cons x xs ihx =>
    intro ys h hs hwf
    cases h with
    | @cons x2 y xs2 ys2 hxy hrest =>
      simp only [jsonReplaceElems]
      have hco : sizeOf (x :: xs) = 1 + sizeOf x + sizeOf xs := by simp
      rw [ih x y (by omega) hxy (hwf y (by simp)),
        ihx ys2 hrest (by omega) (fun y2 hy2 => hwf y2 (by simp [hy2]))]

/-- Replacer congruence: structurally equal payloads with unique member
names yield the same replaced tree, whatever insertion order the caller
used. -/
theorem jsonReplace_congr (K : List String) :
    ∀ (n : Nat) (a b : Json), sizeOf a ≤ n → StructEq a b → WFJson b →
      jsonReplace K a = jsonReplace K b := by
  intro n
  induction n with
  | zero =>
    intro a b hs
    exfalso
    cases a <;> simp at hs
  | succ n ih =>
    intro a b hs heq hwf
    cases heq with
    | null => rfl
    | bool b0 => rfl
    | num n0 => rfl
    | str s0 => rfl
    | @arr xs ys hlist =>
      have hwfe : ∀ y ∈ ys, WFJson y := by
        cases hwf with
        | arr h => exact h
      have hxs : sizeOf xs ≤ n := by
        have : sizeOf (Json.arr xs) = 1 + sizeOf xs := by simp
        omega
      simp only [jsonReplace]
      rw [jsonReplaceElems_congr_aux K n ih xs ys hlist hxs hwfe]
    | @obj fs gs gs2 hperm hfields =>
      have hnd : (gs.map Prod.fst).Nodup := by
        cases hwf with
        | obj h1 h2 => exact h1
      have hwfv : ∀ p ∈ gs, WFJson p.2 := by
        cases hwf with
        | obj h1 h2 => exact h2
      have hfs : sizeOf fs ≤ n := by
        have : sizeOf (Json.obj fs) = 1 + sizeOf fs := by simp
        omega
      simp only [jsonReplace]
      congr 1
      unfold selectByKeys
      have hfun : ∀ k, (List.lookup k (jsonReplaceProps K fs)).map (fun v => (k, v)) =
          (List.lookup k (jsonReplaceProps K gs)).map (fun v => (k, v)) := by
        intro k
        rw [lookup_jsonReplaceProps, lookup_jsonReplaceProps]
        have hg : List.lookup k gs = List.lookup k gs2 := lookup_perm_nodup hperm hnd k
        rcases structEqFields_lookup fs gs2 hfields k with ⟨h1, h2⟩ | ⟨v, w, h1, h2, hvw⟩
        · rw [h1, hg, h2]
        · rw [h1, hg, h2]
          have hv : sizeOf v ≤ n := by
            have h3 := List.sizeOf_lt_of_mem (lookup_mem k fs v h1)
            have h4 : sizeOf (k, v) = 1 + sizeOf k + sizeOf v := by simp
            omega
          have hwfw : WFJson w :=
            hwfv (k, w) (hperm.mem_iff.mpr (lookup_mem k gs2 w h2))
          simp [ih v w hv hvw hwfw]
      exact congrArg (fun fn => List.filterMap fn K) (funext hfun)

/-- Key-based filtering preserves pointwise relatedness of member lists. -/
theorem structEqFields_filterKey (p : String → Bool) :
    ∀ (fs gs : List (String × Json)), StructEqFields fs gs →
      StructEqFields (fs.filter (fun q => p q.1)) (gs.filter (fun q => p q.1)) := by
  intro fs
  induction fs with
  | nil =>
    intro gs h
    cases h
    exact .nil
  | cons q fs ih =>
    intro gs h
    cases h with
    | @cons k0 v w fs2 gs2 hv hrest =>
      simp only [List.filter_cons]
      cases hp : p k0
      · simpa using ih _ hrest
      · simpa using StructEqFields.cons hv (ih _ hrest)

/-- Removal of the signature member preserves structural equality. -/
theorem structEq_removeSignature {a b : Json} (h : StructEq a b) :
    StructEq (removeSignatureField a) (removeSignatureField b) := by
  cases h with
  | null => exact .null
  | bool b0 => exact .bool b0
  | num n0 => exact .num n0
  | str s0 => exact .str s0
  | arr hlist => exact .arr hlist
  | @obj fs gs gs2 hperm hfields =>
    exact .obj (hperm.filter _)
      (structEqFields_filterKey (fun k => !(k == "signature")) fs gs2 hfields)

/-- Removal of the signature member preserves well-formedness. -/
theorem wfJson_removeSignature {a : Json} (h : WFJson a) :
    WFJson (removeSignatureField a) := by
  cases h with
  | null => exact .null
  | bool b0 => exact .bool b0
  | num n0 => exact .num n0
  | str s0 => exact .str s0
  | arr he => exact .arr he
  | @obj fs hnd hv =>
    refine .obj ?_ ?_
    · exact ((List.filter_sublist fs).map Prod.fst).nodup hnd
    · intro p hp
      exact hv p (List.mem_of_mem_filter hp)

/-- Structurally equal payloads expose permuted top-level name lists. -/
theorem topLevelKeys_perm {a b : Json} (h : StructEq a b) :
    (topLevelKeys a).Perm (topLevelKeys b) := by
  cases h with
  | null => exact .refl _
  | bool b0 => exact .refl _
  | num n0 => exact .refl _
  | str s0 => exact .refl _
  | arr hlist => exact .refl _
  | @obj fs gs gs2 hperm hfields =>
    have h1 := structEqFields_keys fs gs2 hfields
    have h2 : (gs.map Prod.fst).Perm (gs2.map Prod.fst) := hperm.map Prod.fst
    simp only [topLevelKeys]
    rw [h1]
    exact h2.symm

/-- Canonicalization congruence: structurally equal well-formed bodies
produce identical message strings. -/
theorem canonicalizeBody_congr (a b : Json) (ha : WFJson a) (hb : WFJson b)
    (h : StructEq a b) : canonicalizeBody a = canonicalizeBody b := by
  have h2 : StructEq (removeSignatureField a) (removeSignatureField b) :=
    structEq_removeSignature h
  have hwb : WFJson (removeSignatureField b) := wfJson_removeSignature hb
  have hkeys : sortedKeys (removeSignatureField a) = sortedKeys (removeSignatureField b) :=
    insertionSortStrings_perm_eq _ _ (topLevelKeys_perm h2)
  have e1 : canonicalizeBody a = serializeJson
      (jsonReplace (sortedKeys (removeSignatureField a)) (removeSignatureField a)) := rfl
  have e2 : canonicalizeBody b = serializeJson
      (jsonReplace (sortedKeys (removeSignatureField b)) (removeSignatureField b)) := rfl
  rw [e1, e2, hkeys]
  exact congrArg serializeJson
    (jsonReplace_congr _ (sizeOf (removeSignatureField a)) _ _ le_rfl h2 hwb)

/-- Claim C1 counterexample: the message built by the routes is not the
recursively key-sorted serialization the claim describes; with a nested
metadata object whose member names are not top-level names, the array
replacer drops the nested members, so the two canonicalizations differ. -/
theorem C1_counterexample :
    canonicalizeBody cexPayload ≠ canonicalizeSpecSorted cexPayload ∧
    canonicalizeBody cexPayload = "\x7b\"metadata\":\x7b\x7d,\"name\":\"n\"\x7d" ∧
    canonicalizeSpecSorted cexPayload =
      "\x7b\"metadata\":\x7b\"description\":\"x\"\x7d,\"name\":\"n\"\x7d" := by decide

/-- Claim C1 (amended): the message bytes produced by canonicalization are
identical for any two structurally equal payloads regardless of the member
insertion order used by the caller - not because keys are sorted at every
nesting level, but because JSON.stringify with the sorted top-level name
list as array replacer emits members in replacer order at every level and
drops nested members whose names are not top-level names; consequently a
signature verifies against the re-ordered serialization exactly when it
verifies against the original. -/
theorem C1_canonicalization_deterministic (a b : Json) (ha : WFJson a) (hb : WFJson b)
    (h : StructEq a b) :
    canonicalizeBody a = canonicalizeBody b ∧
    ∀ (ed : EdVerify) (sig pk : String),
      verifySolanaSignature ed (canonicalizeBody a) sig pk =
        verifySolanaSignature ed (canonicalizeBody b) sig pk := by
  have hc := canonicalizeBody_congr a b ha hb h
  exact ⟨hc, fun ed sig pk => by rw [hc]⟩

/-- Witness for C1 at two concrete payloads whose members are inserted in
opposite orders at both nesting levels. -/
theorem C1_canonicalization_deterministic_witness :
    canonicalizeBody payloadOrdered = canonicalizeBody payloadReordered ∧
    ∀ (ed : EdVerify) (sig pk : String),
      verifySolanaSignature ed (canonicalizeBody payloadOrdered) sig pk =
        verifySolanaSignature ed (canonicalizeBody payloadReordered) sig pk := by
  have hinner : StructEq (Json.obj [("games", Json.arr [Json.str "slots"]),
      ("description", Json.str "d")]) (Json.obj [("description", Json.str "d"),
      ("games", Json.arr [Json.str "slots"])]) := by
    refine StructEq.obj (List.Perm.swap _ _ _) ?_
    exact .cons (.arr (.cons (.str _) .nil)) (.cons (.str _) .nil)
  have houter : StructEq payloadOrdered payloadReordered := by
    refine StructEq.obj (List.Perm.swap _ _ _) ?_
    exact .cons (.str _) (.cons hinner .nil)
  have hwa : WFJson payloadOrdered := by
    refine WFJson.obj (by simp) ?_
    intro p hp
    simp only [payloadOrdered, List.mem_cons, List.mem_singleton] at hp
    rcases hp with rfl | hp
    · exact .str _
    rcases hp with rfl | hp
    · refine WFJson.obj (by simp) ?_
      intro q hq
      simp only [List.mem_cons, List.mem_singleton] at hq
      rcases hq with rfl | hq
      · refine WFJson.arr ?_
        intro x hx
        simp only [List.mem_singleton] at hx
        rw [hx]
        exact .str _
      rcases hq with rfl | hq
      · exact .str _
      · exact absurd hq (by simp)
    · exact absurd hp (by simp)
  have hwb : WFJson payloadReordered := by
    refine WFJson.obj (by simp) ?_
    intro p hp
    simp only [payloadReordered, List.mem_cons, List.mem_singleton] at hp
    rcases hp with rfl | hp
    · refine WFJson.obj (by simp) ?_
      intro q hq
      simp only [List.mem_cons, List.mem_singleton] at hq
      rcases hq with rfl | hq
      · exact .str _
      rcases hq with rfl | hq
      · refine WFJson.arr ?_
        intro x hx
        simp only [List.mem_singleton] at hx
        rw [hx]
        exact .str _
      · exact absurd hq (by simp)
    rcases hp with rfl | hp
    · exact .str _
    · exact absurd hp (by simp)
  exact C1_canonicalization_deterministic payloadOrdered payloadReordered hwa hwb houter

/-- Witness for C6: updating only the description of the fixture casino. -/
theorem C6_update_partial_merge_witness :
    ∃ c0, findUniqueById storeC1 updOnlyDescription.casinoId = some c0 ∧
      casinoC1AfterUpd.id = c0.id ∧ casinoC1AfterUpd.publicKey = c0.publicKey ∧
      casinoC1AfterUpd.createdAt = c0.createdAt ∧
      casinoC1AfterUpd.version = c0.version ∧
      (updOnlyDescription.name = none → casinoC1AfterUpd.name = c0.name) ∧
      (∀ v, updOnlyDescription.name = some v → casinoC1AfterUpd.name = v) ∧
      (updOnlyDescription.url = none → casinoC1AfterUpd.url = c0.url) ∧
      (updOnlyDescription.status = none → casinoC1AfterUpd.status = c0.status) ∧
      (updOnlyDescription.metadata = none →
        casinoC1AfterUpd.description = c0.description ∧ casinoC1AfterUpd.games = c0.games ∧
        casinoC1AfterUpd.logo = c0.logo ∧ casinoC1AfterUpd.banner = c0.banner ∧
        casinoC1AfterUpd.twitterUrl = c0.twitterUrl ∧
        casinoC1AfterUpd.discordUrl = c0.discordUrl ∧
        casinoC1AfterUpd.telegramUrl = c0.telegramUrl ∧
        casinoC1AfterUpd.websiteUrl = c0.websiteUrl ∧
        casinoC1AfterUpd.maxBetAmount = c0.maxBetAmount ∧
        casinoC1AfterUpd.minBetAmount = c0.minBetAmount ∧
        casinoC1AfterUpd.supportedTokens = c0.supportedTokens) ∧
      (∀ md, updOnlyDescription.metadata = some md →
        (md.description = none → casinoC1AfterUpd.description = c0.description) ∧
        (∀ v, md.description = some v → casinoC1AfterUpd.description = some v) ∧
        (md.games = none → casinoC1AfterUpd.games = c0.games) ∧
        (md.logo = none → casinoC1AfterUpd.logo = c0.logo) ∧
        (md.banner = none → casinoC1AfterUpd.banner = c0.banner) ∧
        (md.socialLinks = none →
          casinoC1AfterUpd.twitterUrl = c0.twitterUrl ∧
          casinoC1AfterUpd.discordUrl = c0.discordUrl ∧
          casinoC1AfterUpd.telegramUrl = c0.telegramUrl ∧
          casinoC1AfterUpd.websiteUrl = c0.websiteUrl) ∧
        (∀ sl, md.socialLinks = some sl →
          (sl.twitter = none → casinoC1AfterUpd.twitterUrl = c0.twitterUrl) ∧
          (sl.discord = none → casinoC1AfterUpd.discordUrl = c0.discordUrl) ∧
          (sl.telegram = none → casinoC1AfterUpd.telegramUrl = c0.telegramUrl) ∧
          (sl.website = none → casinoC1AfterUpd.websiteUrl = c0.websiteUrl)) ∧
        (md.maxBetAmount = none → casinoC1AfterUpd.maxBetAmount = c0.maxBetAmount) ∧
        (md.minBetAmount = none → casinoC1AfterUpd.minBetAmount = c0.minBetAmount) ∧
        (md.supportedTokens = none →
          casinoC1AfterUpd.supportedTokens = c0.supportedTokens)) ∧
      (∀ d ∈ storeC1.casinos, d.id ≠ updOnlyDescription.casinoId →
        d ∈ storeC1AfterUpd.casinos) :=
  C6_update_partial_merge 99 updOnlyDescription storeC1 casinoC1AfterUpd storeC1AfterUpd rfl

end FareplayDiscovery
